import Mathlib

/-!
Shallow embedding of the logdna buffering client (src/logdna.go).

Modelling conventions:
- `time.Time` values are represented by their `UnixNano()` value as an `Int`;
  Go's `int64` division `/` truncates toward zero, so it is modelled by
  `Int.tdiv`.
- The network transport is a parameter: a `TransportResult` describes what a
  single `http.Post` call returns (a transport error, or a status code with a
  response body).  `os.Hostname()` is likewise passed in as an
  `Except String String`.
- `url.Values` is modelled as an association list of key/value pairs.  Go
  stores the encoded `RawQuery` string and re-parses it on each `Query()`
  call; since `Values.Encode` emits keys in sorted order and percent-encoded,
  the sort and the percent-encoding are folded into the serialization
  function `urlString` while the query itself is kept as the association
  list.
- `encoding/json` on the concrete types `payloadJSON`/`logLineJSON` never
  fails, so the encode-error branch of `Flush` is not reachable and encoding
  is a total function.  A nil slice is marshalled by Go as `null`; in this
  program the `Lines` slice is nil exactly when it is empty (it starts nil,
  is reset to nil, and otherwise grows by `append`), so the empty list
  renders as `null`.
-/

namespace Logdna

/-- `DefaultFlushLimit` from src/logdna.go: number of lines before flush. -/
def DefaultFlushLimit : Int := 500

/-- `Config` from src/logdna.go. `FlushLimit` is a Go `int`, hence `Int`. -/
structure Config where
  APIKey : String
  Hostname : String
  FlushLimit : Int
deriving Repr, DecidableEq

/-- `logLineJSON` from src/logdna.go: one log line of the wire payload. -/
structure logLineJSON where
  Timestamp : Int
  Line : String
  File : String
deriving Repr, DecidableEq

/-- `payloadJSON` from src/logdna.go: the full wire payload. -/
structure payloadJSON where
  Lines : List logLineJSON
deriving Repr, DecidableEq

/-! ### JSON serialization (models `encoding/json` marshalling) -/

/-- One hexadecimal digit, lowercase (as in `encoding/json` `\u00xx` escapes):
values below ten map into the decimal digits, the rest from `a` (97) on. -/
def hexLower (d : Nat) : Char :=
  if d < 10 then Char.ofNat (48 + d) else Char.ofNat (87 + d)

/-- How `encoding/json` (with HTML escaping, the default) escapes one rune of
a string value. -/
def escapeJSONChar (c : Char) : String :=
  if c = '"' then "\\\""
  else if c = '\\' then "\\\\"
  else if c = '\n' then "\\n"
  else if c = '\r' then "\\r"
  else if c = '\t' then "\\t"
  else if c.toNat < 32 then
    "\\u00" ++ String.singleton (hexLower (c.toNat / 16))
      ++ String.singleton (hexLower (c.toNat % 16))
  else if c = '<' then "\\u003c"
  else if c = '>' then "\\u003e"
  else if c = '&' then "\\u0026"
  else if c.toNat = 0x2028 then "\\u2028"
  else if c.toNat = 0x2029 then "\\u2029"
  else String.singleton c

/-- JSON string literal as produced by `encoding/json`. -/
def renderJSONString (s : String) : String :=
  "\"" ++ String.join (s.data.map escapeJSONChar) ++ "\""

/-- Marshalling of one `logLineJSON` value: fields in struct declaration
order, names from the struct tags. -/
def renderLogLine (l : logLineJSON) : String :=
  "\x7b\"timestamp\":" ++ toString l.Timestamp
    ++ ",\"line\":" ++ renderJSONString l.Line
    ++ ",\"file\":" ++ renderJSONString l.File ++ "\x7d"

/-- Marshalling of the `Lines` slice.  In this program the slice is nil
exactly when it is empty, and Go marshals a nil slice as `null`. -/
def renderLines : List logLineJSON → String
  | [] => "null"
  | ls => "[" ++ String.intercalate "," (ls.map renderLogLine) ++ "]"

/-- `json.Marshal` of a `payloadJSON` value. -/
def renderPayload (p : payloadJSON) : String :=
  "\x7b\"lines\":" ++ renderLines p.Lines ++ "\x7d"

/-! ### JSON values, generic encoding and decoding

`json.Marshal` produces (the textual form of) a JSON value; `json.Unmarshal`
maps a JSON value back into the struct types.  The JSON value produced and
consumed is modelled by `Json`. -/

/-- A JSON value (the fragment used by this program: null, integral numbers,
strings, arrays, objects with fields in marshalling order). -/
inductive Json where
  | null : Json
  | num : Int → Json
  | str : String → Json
  | arr : List Json → Json
  | obj : List (String × Json) → Json

/-- The JSON value `json.Marshal` produces for one `logLineJSON`. -/
def encodeLogLine (l : logLineJSON) : Json :=
  .obj [("timestamp", .num l.Timestamp), ("line", .str l.Line), ("file", .str l.File)]

/-- The JSON value `json.Marshal` produces for a `payloadJSON`: a nil
(empty) slice marshals as `null`, otherwise as the array of encoded lines. -/
def encodePayload (p : payloadJSON) : Json :=
  .obj [("lines", match p.Lines with
    | [] => Json.null
    | ls => Json.arr (ls.map encodeLogLine))]

/-- `json.Unmarshal` of one array element into a `logLineJSON`: absent
fields keep the zero value, a field of the wrong type is an error. -/
def decodeLogLine : Json → Option logLineJSON
  | .obj fs =>
    let t? : Option Int := match fs.lookup "timestamp" with
      | none => some 0
      | some (.num n) => some n
      | some _ => none
    let l? : Option String := match fs.lookup "line" with
      | none => some ""
      | some (.str s) => some s
      | some _ => none
    let f? : Option String := match fs.lookup "file" with
      | none => some ""
      | some (.str s) => some s
      | some _ => none
    match t?, l?, f? with
    | some t, some l, some f => some ⟨t, l, f⟩
    | _, _, _ => none
  | _ => none

/-- Elementwise decoding of a JSON array into a slice; any element error
aborts the whole decode, as in `encoding/json`. -/
def decodeLineList : List Json → Option (List logLineJSON)
  | [] => some []
  | j :: js =>
    match decodeLogLine j, decodeLineList js with
    | some l, some ls => some (l :: ls)
    | _, _ => none

/-- `json.Unmarshal` of the `lines` field value into `[]logLineJSON`:
`null` leaves the slice nil (empty), an array decodes elementwise, anything
else is an error. -/
def decodeLines : Json → Option (List logLineJSON)
  | .null => some []
  | .arr es => decodeLineList es
  | _ => none

/-- `json.Unmarshal` of a JSON value into a `payloadJSON`. -/
def decodePayload : Json → Option payloadJSON
  | .obj fs =>
    match fs.lookup "lines" with
    | none => some ⟨[]⟩
    | some j => (decodeLines j).map payloadJSON.mk
  | _ => none

/-! ### URL endpoint (models `net/url` as used by makeEndpoint/refreshEndpoint) -/

/-- One hexadecimal digit, uppercase (as used by `net/url` percent escapes):
values below ten map into the decimal digits, the rest from `A` (65) on. -/
def hexUpper (d : Nat) : Char :=
  if d < 10 then Char.ofNat (48 + d) else Char.ofNat (55 + d)

/-- `%XX` escape of one byte, uppercase hex, as in `net/url`. -/
def percentEncodeByte (b : UInt8) : String :=
  "%" ++ String.singleton (hexUpper (b.toNat / 16))
    ++ String.singleton (hexUpper (b.toNat % 16))

/-- Bytes `net/url.QueryEscape` leaves unescaped: ASCII alphanumerics and
`-`, `.`, `_`, `~`. -/
def isUnreservedQueryByte (b : UInt8) : Bool :=
  (65 ≤ b.toNat && b.toNat ≤ 90) || (97 ≤ b.toNat && b.toNat ≤ 122)
    || (48 ≤ b.toNat && b.toNat ≤ 57)
    || b.toNat = 45 || b.toNat = 46 || b.toNat = 95 || b.toNat = 126

/-- `net/url.QueryEscape`: space becomes `+`, unreserved bytes stay, every
other byte of the UTF-8 encoding is percent-escaped. -/
def queryEscape (s : String) : String :=
  String.join (s.toUTF8.toList.map fun b =>
    if b.toNat = 32 then "+"
    else if isUnreservedQueryByte b then String.singleton (Char.ofNat b.toNat)
    else percentEncodeByte b)

/-- The query of a URL, modelled parsed (Go's `url.Values` without the
round trip through the encoded `RawQuery` string). -/
abbrev Values := List (String × String)

/-- `url.Values.Set`: replace every existing value of the key with the
single given value. -/
def valuesSet (q : Values) (k v : String) : Values :=
  (q.filter fun p => p.1 != k) ++ [(k, v)]

/-- Insertion into a key-sorted association list (helper for the sorted
iteration of `url.Values.Encode`). -/
def insertByKey (p : String × String) : Values → Values
  | [] => [p]
  | q :: qs => if p.1 ≤ q.1 then p :: q :: qs else q :: insertByKey p qs

/-- Keys in sorted order, as `url.Values.Encode` iterates them. -/
def sortByKey (q : Values) : Values :=
  q.foldr insertByKey []

/-- `url.Values.Encode`: `k=v` pairs, keys sorted, both sides
query-escaped, joined by `&`. -/
def valuesEncode (q : Values) : String :=
  String.intercalate "&" ((sortByKey q).map fun p => queryEscape p.1 ++ "=" ++ queryEscape p.2)

/-- The `*url.URL` held by the client.  The base `IngestBaseURL` is the
constant `https://logs.logdna.com/logs/ingest`; `user` is the userinfo
component set from the API key. -/
structure URL where
  scheme : String
  user : String
  host : String
  path : String
  rawQuery : Values
deriving Repr, DecidableEq

/-- `URL.String()` for the URLs this program builds:
`scheme://user@host/path?query`. -/
def urlString (u : URL) : String :=
  let q := valuesEncode u.rawQuery
  u.scheme ++ "://" ++ u.user ++ "@" ++ u.host ++ u.path
    ++ (if q = "" then "" else "?" ++ q)

/-- `makeEndpoint` from src/logdna.go: parse the constant base URL (which
always succeeds, but the error contract is kept), set the userinfo to the
API key and the `hostname` query parameter to the configured hostname. -/
def makeEndpoint (cfg : Config) : Except String URL :=
  .ok { scheme := "https", user := cfg.APIKey, host := "logs.logdna.com",
        path := "/logs/ingest", rawQuery := valuesSet [] "hostname" cfg.Hostname }

/-- `nowToMs` from src/logdna.go: `t.UnixNano() / 1e6` on `int64`, i.e.
division truncating toward zero. -/
def nowToMs (t : Int) : Int :=
  Int.tdiv t 1000000

/-- The character of one decimal digit. -/
def digitChar (d : Nat) : Char :=
  Char.ofNat (48 + d)

/-- Most-significant-first decimal digits of a natural number; the fuel is
structural and any fuel above the number suffices. -/
def natToDigitsAux : Nat → Nat → List Char
  | 0, _ => []
  | fuel + 1, n =>
    if n < 10 then [digitChar n]
    else natToDigitsAux fuel (n / 10) ++ [digitChar (n % 10)]

/-- Decimal digits of a natural number, most significant first, no leading
zeros (`0` renders as `"0"`). -/
def natToDigits (n : Nat) : List Char :=
  natToDigitsAux (n + 1) n

/-- `strconv.FormatInt(m, 10)`: decimal representation, `-`-prefixed when
negative. -/
def formatInt (m : Int) : String :=
  if m < 0 then String.mk ('-' :: natToDigits m.natAbs)
  else String.mk (natToDigits m.natAbs)

/-- The number a most-significant-first digit string denotes (specification
device used to show `formatInt` is injective). -/
def valDigits (l : List Char) : Nat :=
  l.foldl (fun a c => 10 * a + (c.toNat - 48)) 0

/-- `refreshEndpoint` from src/logdna.go: read the query, set `now` to the
current instant in milliseconds (decimal), store the query back and return
the serialized URL.  `nowNs` is the `UnixNano` of `time.Now()`. -/
def refreshEndpoint (u : URL) (nowNs : Int) : URL × String :=
  let q := u.rawQuery
  let m := nowToMs nowNs
  let q2 := valuesSet q "now" (formatInt m)
  let u2 := { u with rawQuery := q2 }
  (u2, urlString u2)

/-! ### The client -/

/-- `Client` from src/logdna.go.  The mutex only orders concurrent calls
and has no sequential content, so it is not part of the state. -/
structure Client where
  endpoint : URL
  flushLimit : Int
  payload : payloadJSON
deriving Repr, DecidableEq

/-- What one `http.Post` call returns: a transport error, or a response
with a status code and a body. -/
inductive TransportResult where
  | transportError : String → TransportResult
  | response : Nat → String → TransportResult
deriving Repr, DecidableEq

/-- Result of `Flush`: the client state after the call, the returned error
(`none` is Go's nil), and the POSTs attempted as (url, request body) pairs. -/
structure FlushOut where
  client : Client
  err : Option String
  posts : List (String × String)
deriving Repr, DecidableEq

/-- Go: `if h == "" { ... os.Hostname ... }` part of `NewClient`: resolve
the hostname from the config or, when absent, from the kernel. -/
def resolveHostname (cfgHostname : String) (osHostname : Except String String) : Except String String :=
  if cfgHostname = "" then
    match osHostname with
    | .error e => .error e
    | .ok h =>
      if h = "" then .error "Hostname missing in Config and could not use os.Hostname"
      else .ok h
  else .ok cfgHostname

/-- `NewClient` from src/logdna.go.  `osHostname` is what `os.Hostname()`
would return (consulted only when the config hostname is empty). -/
def NewClient (cfg : Config) (osHostname : Except String String) : Except String Client :=
  if cfg.APIKey = "" then .error "APIKey missing in Config"
  else
    match resolveHostname cfg.Hostname osHostname with
    | .error e => .error e
    | .ok h =>
      let limit := if cfg.FlushLimit = 0 then DefaultFlushLimit else cfg.FlushLimit
      match makeEndpoint { cfg with Hostname := h, FlushLimit := limit } with
      | .error e => .error e
      | .ok endpoint =>
        .ok { endpoint := endpoint, flushLimit := limit, payload := ⟨[]⟩ }

/-- `Size` from src/logdna.go: `len(c.payload.Lines)` as a Go `int`. -/
def Size (c : Client) : Int :=
  (c.payload.Lines.length : Int)

/-- `Flush` from src/logdna.go.  Early return on an empty buffer; otherwise
encode the payload (total on these types; `json.Encoder.Encode` appends a
newline), refresh the endpoint, POST, then: 200 clears the buffer and
returns nil; a transport error returns that error; any other status returns
the response body as the error.  The buffer is only touched in the 200
case. -/
def Flush (c : Client) (nowNs : Int) (tr : TransportResult) : FlushOut :=
  if Size c = 0 then ⟨c, none, []⟩
  else
    let body := renderPayload c.payload ++ "\n"
    let r := refreshEndpoint c.endpoint nowNs
    let c2 : Client := { c with endpoint := r.1 }
    match tr with
    | .transportError m => ⟨c2, some m, [(r.2, body)]⟩
    | .response status rbody =>
      if status = 200 then ⟨{ c2 with payload := ⟨[]⟩ }, none, [(r.2, body)]⟩
      else ⟨c2, some rbody, [(r.2, body)]⟩

/-- The `logLineJSON` a `Log(t, msg)` call appends: timestamp in
milliseconds, the message, and the `File` field left at its zero value. -/
def logLineOf (t : Int) (msg : String) : logLineJSON :=
  ⟨nowToMs t, msg, ""⟩

/-- `Log` from src/logdna.go: append the line (under the lock), then check
`Size() >= flushLimit` and flush when reached.  The flush's error is
discarded (Go's `Log` returns nothing); the POSTs attempted are returned so
flush attempts are observable.  `nowNs` is the instant `Flush` would read
from `time.Now()`. -/
def Log (c : Client) (t : Int) (msg : String) (nowNs : Int) (tr : TransportResult) :
    Client × List (String × String) :=
  let c1 : Client := { c with payload := ⟨c.payload.Lines ++ [logLineOf t msg]⟩ }
  if Size c1 ≥ c1.flushLimit then
    let r := Flush c1 nowNs tr
    (r.client, r.posts)
  else (c1, [])

/-- A sequence of `Log` calls (one producer, no intervening explicit
`Flush`), collecting every POST attempted along the way. -/
def runLogs (c : Client) (calls : List (Int × String)) (nowNs : Int) (tr : TransportResult) :
    Client × List (String × String) :=
  match calls with
  | [] => (c, [])
  | (t, m) :: rest =>
    let r1 := Log c t m nowNs tr
    let r2 := runLogs r1.1 rest nowNs tr
    (r2.1, r1.2 ++ r2.2)

/-- The lines a sequence of `Log` calls appends, in call order. -/
def linesOf (calls : List (Int × String)) : List logLineJSON :=
  calls.map fun p => logLineOf p.1 p.2

/-! ### Sample values used to exercise the definitions on concrete inputs -/

/-- A concrete endpoint as `makeEndpoint` builds it. -/
def sampleURL : URL :=
  { scheme := "https", user := "secret", host := "logs.logdna.com",
    path := "/logs/ingest", rawQuery := [("hostname", "testhost.com")] }

/-- A concrete freshly-constructed client (empty buffer, threshold 10). -/
def sampleClient : Client :=
  { endpoint := sampleURL, flushLimit := 10, payload := ⟨[]⟩ }

/-- First known log line (values from the repository's marshalling test). -/
def sampleLine1 : logLineJSON := ⟨1469047048, "Test line 1", "test.log"⟩

/-- Second known log line (values from the repository's marshalling test). -/
def sampleLine2 : logLineJSON := ⟨1469146012, "Test line 2", "test.log"⟩

/-- A concrete client holding the two known lines. -/
def sampleClient2 : Client :=
  { endpoint := sampleURL, flushLimit := 10, payload := ⟨[sampleLine1, sampleLine2]⟩ }

/-- A concrete client whose flush limit is negative. -/
def sampleNegClient : Client :=
  { endpoint := sampleURL, flushLimit := -5, payload := ⟨[]⟩ }

/-! ### Helper lemmas -/

theorem lookup_valuesSet_self (q : Values) (k v : String) :
    (valuesSet q k v).lookup k = some v := by
  induction q with
  | nil => simp [valuesSet, List.lookup]
  | cons p q ih =>
    obtain ⟨a, b⟩ := p
    by_cases h : a = k
    · simpa [valuesSet, List.filter_cons, h] using ih
    · simp only [valuesSet, List.filter_cons] at ih ⊢
      simp only [bne_iff_ne, ne_eq, h, not_false_eq_true, if_true, decide_not]
      rw [List.cons_append, List.lookup_cons]
      have : (k == a) = false := by
        simp [Ne.symm h]
      simp [this, ih]

theorem lookup_valuesSet_ne (q : Values) (k v k2 : String) (h : k2 ≠ k) :
    (valuesSet q k v).lookup k2 = q.lookup k2 := by
  induction q with
  | nil =>
    have hb : (k2 == k) = false := by simp [h]
    simp [valuesSet, List.lookup, hb]
  | cons p q ih =>
    obtain ⟨a, b⟩ := p
    by_cases ha : a = k
    · subst ha
      have : (k2 == a) = false := by simp [h]
      simp only [valuesSet, List.filter_cons] at ih ⊢
      simp only [bne_self_eq_false, if_neg, Bool.false_eq_true, not_false_eq_true, ite_false]
      rw [List.lookup_cons]
      simp [this, ih]
    · by_cases h2 : k2 = a
      · subst h2
        simp only [valuesSet, List.filter_cons] at ih ⊢
        simp only [bne_iff_ne, ne_eq, ha, not_false_eq_true, if_true, decide_not]
        rw [List.cons_append, List.lookup_cons, List.lookup_cons]
        simp
      · have : (k2 == a) = false := by simp [h2]
        simp only [valuesSet, List.filter_cons] at ih ⊢
        simp only [bne_iff_ne, ne_eq, ha, not_false_eq_true, if_true, decide_not]
        rw [List.cons_append, List.lookup_cons, List.lookup_cons]
        simp [this, ih]

theorem Size_eq_zero_iff (c : Client) : Size c = 0 ↔ c.payload.Lines = [] := by
  simp [Size, List.length_eq_zero]

theorem Flush_transportError (c : Client) (ns : Int) (m : String)
    (h : c.payload.Lines ≠ []) :
    Flush c ns (.transportError m) =
      ⟨{ c with endpoint := (refreshEndpoint c.endpoint ns).1 }, some m,
        [((refreshEndpoint c.endpoint ns).2, renderPayload c.payload ++ "\n")]⟩ := by
  have hs : ¬ (Size c = 0) := fun hz => h ((Size_eq_zero_iff c).mp hz)
  rw [Flush, if_neg hs]

theorem Flush_badStatus (c : Client) (ns : Int) (s : Nat) (b : String)
    (h : c.payload.Lines ≠ []) (hs200 : s ≠ 200) :
    Flush c ns (.response s b) =
      ⟨{ c with endpoint := (refreshEndpoint c.endpoint ns).1 }, some b,
        [((refreshEndpoint c.endpoint ns).2, renderPayload c.payload ++ "\n")]⟩ := by
  have hs : ¬ (Size c = 0) := fun hz => h ((Size_eq_zero_iff c).mp hz)
  rw [Flush, if_neg hs]
  simp [hs200]

theorem Flush_ok (c : Client) (ns : Int) (b : String)
    (h : c.payload.Lines ≠ []) :
    Flush c ns (.response 200 b) =
      ⟨{ c with endpoint := (refreshEndpoint c.endpoint ns).1, payload := ⟨[]⟩ }, none,
        [((refreshEndpoint c.endpoint ns).2, renderPayload c.payload ++ "\n")]⟩ := by
  have hs : ¬ (Size c = 0) := fun hz => h ((Size_eq_zero_iff c).mp hz)
  rw [Flush, if_neg hs]
  simp

theorem Flush_posts_length (c : Client) (ns : Int) (tr : TransportResult)
    (h : c.payload.Lines ≠ []) :
    (Flush c ns tr).posts.length = 1 := by
  cases tr with
  | transportError m =>
    rw [Flush_transportError c ns m h]
    rfl
  | response s b =>
    by_cases hs : s = 200
    · subst hs
      rw [Flush_ok c ns b h]
      rfl
    · rw [Flush_badStatus c ns s b h hs]
      rfl

theorem runLogs_no_flush (calls : List (Int × String)) (c : Client) (ns : Int)
    (tr : TransportResult)
    (h : (c.payload.Lines.length : Int) + calls.length < c.flushLimit) :
    runLogs c calls ns tr = ({ c with payload := ⟨c.payload.Lines ++ linesOf calls⟩ }, []) := by
  induction calls generalizing c with
  | nil => simp [runLogs, linesOf]
  | cons p rest ih =>
    obtain ⟨t, m⟩ := p
    have hlog : Log c t m ns tr = ({ c with payload := ⟨c.payload.Lines ++ [logLineOf t m]⟩ }, []) := by
      simp only [Log]
      rw [if_neg]
      simp only [Size, List.length_append, List.length_cons, List.length_nil, not_le]
      simp only [List.length_cons] at h
      push_cast at h ⊢
      omega
    have hrest : ((({ c with payload := ⟨c.payload.Lines ++ [logLineOf t m]⟩ } : Client).payload.Lines.length : Int)
        + rest.length < ({ c with payload := ⟨c.payload.Lines ++ [logLineOf t m]⟩ } : Client).flushLimit) := by
      simp only [List.length_append, List.length_cons, List.length_nil]
      simp only [List.length_cons] at h
      push_cast at h ⊢
      omega
    simp only [runLogs, hlog]
    rw [ih _ hrest]
    simp [linesOf, List.append_assoc]

theorem digitChar_toNat (d : Nat) (h : d < 10) : (digitChar d).toNat = 48 + d := by
  have hv : (48 + d).isValidChar := by
    left
    omega
  rw [digitChar, Char.ofNat, dif_pos hv]
  simp [Char.ofNatAux, Char.toNat, UInt32.toNat, BitVec.toNat_ofNatLt]

theorem valDigits_append_digit (l : List Char) (c : Char) :
    valDigits (l ++ [c]) = 10 * valDigits l + (c.toNat - 48) := by
  simp [valDigits, List.foldl_append]

theorem valDigits_natToDigitsAux (fuel : Nat) : ∀ n : Nat, n ≤ fuel →
    valDigits (natToDigitsAux (fuel + 1) n) = n := by
  induction fuel with
  | zero =>
    intro n hn
    have : n = 0 := by omega
    subst this
    decide
  | succ fuel ih =>
    intro n hn
    by_cases h10 : n < 10
    · rw [natToDigitsAux, if_pos h10]
      simp [valDigits, digitChar_toNat n h10]
    · rw [natToDigitsAux, if_neg h10, valDigits_append_digit,
        ih (n / 10) (by omega), digitChar_toNat (n % 10) (by omega)]
      omega

theorem valDigits_natToDigits (n : Nat) : valDigits (natToDigits n) = n :=
  valDigits_natToDigitsAux n n (Nat.le_refl n)

theorem natToDigitsAux_all_digits (fuel : Nat) : ∀ (n : Nat) (c : Char),
    c ∈ natToDigitsAux fuel n → 48 ≤ c.toNat ∧ c.toNat ≤ 57 := by
  induction fuel with
  | zero =>
    intro n c hc
    simp [natToDigitsAux] at hc
  | succ fuel ih =>
    intro n c hc
    by_cases h10 : n < 10
    · rw [natToDigitsAux, if_pos h10] at hc
      simp at hc
      subst hc
      rw [digitChar_toNat n h10]
      omega
    · rw [natToDigitsAux, if_neg h10] at hc
      rcases List.mem_append.mp hc with h1 | h2
      · exact ih (n / 10) c h1
      · simp at h2
        subst h2
        rw [digitChar_toNat (n % 10) (by omega)]
        omega

theorem natToDigits_injective {m n : Nat} (h : natToDigits m = natToDigits n) : m = n := by
  have hm := valDigits_natToDigits m
  rw [h, valDigits_natToDigits] at hm
  omega

theorem formatInt_injective {m1 m2 : Int} (h : formatInt m1 = formatInt m2) : m1 = m2 := by
  have hdash : ∀ k : Nat, ('-' : Char) ∉ natToDigits k := by
    intro k hk
    have := natToDigitsAux_all_digits (k + 1) k '-' hk
    revert this
    decide
  rw [formatInt, formatInt] at h
  by_cases h1 : m1 < 0 <;> by_cases h2 : m2 < 0
  · rw [if_pos h1, if_pos h2] at h
    have h' := String.data_eq_of_eq h
    simp only [List.cons.injEq, true_and] at h'
    have := natToDigits_injective h'
    omega
  · rw [if_pos h1, if_neg h2] at h
    have h' : ('-' :: natToDigits m1.natAbs) = natToDigits m2.natAbs := String.data_eq_of_eq h
    exact absurd (h' ▸ List.mem_cons_self '-' _) (hdash m2.natAbs)
  · rw [if_neg h1, if_pos h2] at h
    have h' : ('-' :: natToDigits m2.natAbs) = natToDigits m1.natAbs := (String.data_eq_of_eq h).symm
    exact absurd (h' ▸ List.mem_cons_self '-' _) (hdash m1.natAbs)
  · rw [if_neg h1, if_neg h2] at h
    have h' := String.data_eq_of_eq h
    have := natToDigits_injective h'
    omega

theorem decode_encode_logLine (l : logLineJSON) :
    decodeLogLine (encodeLogLine l) = some l := rfl

theorem decode_encode_lineList (ls : List logLineJSON) :
    decodeLineList (ls.map encodeLogLine) = some ls := by
  induction ls with
  | nil => rfl
  | cons l ls ih => simp [List.map_cons, decodeLineList, decode_encode_logLine, ih]

theorem decode_encode_payload (p : payloadJSON) :
    decodePayload (encodePayload p) = some p := by
  obtain ⟨ls⟩ := p
  cases ls with
  | nil => rfl
  | cons l ls =>
    have h1 : decodePayload (encodePayload ⟨l :: ls⟩)
        = (decodeLineList ((l :: ls).map encodeLogLine)).map payloadJSON.mk := rfl
    rw [h1, decode_encode_lineList]
    rfl

/-! ### Claim theorems -/

/-- C9: for every client whose buffer is empty, `Flush` is a no-op returning
success immediately: no POST is attempted, no error is returned, and the
whole client state (buffer and endpoint included) is unchanged. -/
theorem flush_empty_noop (c : Client) (nowNs : Int) (tr : TransportResult)
    (h : c.payload.Lines = []) :
    Flush c nowNs tr = ⟨c, none, []⟩ := by
  rw [Flush, if_pos ((Size_eq_zero_iff c).mpr h)]

/-- Witness for C9 at a concrete empty client and a stub transport. -/
theorem flush_empty_noop_witness :
    sampleClient.payload.Lines = [] ∧
    Flush sampleClient 0 (TransportResult.response 500 "oops") = ⟨sampleClient, none, []⟩ :=
  ⟨rfl, flush_empty_noop sampleClient 0 (TransportResult.response 500 "oops") rfl⟩

/-- C3: on HTTP status 200, `Flush` of a non-empty buffer returns no error
and resets the buffer, so `Size()` afterwards is 0. -/
theorem flush_success_clears_buffer (c : Client) (nowNs : Int) (b : String)
    (h : c.payload.Lines ≠ []) :
    (Flush c nowNs (.response 200 b)).err = none ∧
    (Flush c nowNs (.response 200 b)).client.payload.Lines = [] ∧
    Size (Flush c nowNs (.response 200 b)).client = 0 := by
  rw [Flush_ok c nowNs b h]
  exact ⟨rfl, rfl, rfl⟩

/-- Witness for C3 on the two-line client and a stub 200 transport. -/
theorem flush_success_clears_buffer_witness :
    sampleClient2.payload.Lines ≠ [] ∧
    ((Flush sampleClient2 0 (TransportResult.response 200 "ok")).err = none ∧
     (Flush sampleClient2 0 (TransportResult.response 200 "ok")).client.payload.Lines = [] ∧
     Size (Flush sampleClient2 0 (TransportResult.response 200 "ok")).client = 0) :=
  ⟨by decide, flush_success_clears_buffer sampleClient2 0 "ok" (by decide)⟩

/-- C2: on a transport failure or a non-200 status, `Flush` of a non-empty
buffer returns an error (the transport error, resp. exactly the response
body text) and leaves the buffer untouched: the payload is unchanged and
`Size()` equals the pre-flush count. -/
theorem flush_failure_preserves_buffer (c : Client) (nowNs : Int)
    (h : c.payload.Lines ≠ []) :
    (∀ m, (Flush c nowNs (.transportError m)).err = some m ∧
      (Flush c nowNs (.transportError m)).client.payload = c.payload ∧
      Size (Flush c nowNs (.transportError m)).client = Size c) ∧
    (∀ s b, s ≠ 200 →
      ((Flush c nowNs (.response s b)).err = some b ∧
       (Flush c nowNs (.response s b)).client.payload = c.payload ∧
       Size (Flush c nowNs (.response s b)).client = Size c)) := by
  constructor
  · intro m
    rw [Flush_transportError c nowNs m h]
    exact ⟨rfl, rfl, rfl⟩
  · intro s b hs
    rw [Flush_badStatus c nowNs s b h hs]
    exact ⟨rfl, rfl, rfl⟩

/-- Witness for C2 on the two-line client with a stub 500 transport and a
stub transport error. -/
theorem flush_failure_preserves_buffer_witness :
    sampleClient2.payload.Lines ≠ [] ∧
    (500 : Nat) ≠ 200 ∧
    ((Flush sampleClient2 0 (TransportResult.response 500 "oops")).err = some "oops" ∧
     (Flush sampleClient2 0 (TransportResult.response 500 "oops")).client.payload = sampleClient2.payload ∧
     Size (Flush sampleClient2 0 (TransportResult.response 500 "oops")).client = Size sampleClient2) ∧
    ((Flush sampleClient2 0 (TransportResult.transportError "conn refused")).err = some "conn refused" ∧
     (Flush sampleClient2 0 (TransportResult.transportError "conn refused")).client.payload = sampleClient2.payload ∧
     Size (Flush sampleClient2 0 (TransportResult.transportError "conn refused")).client = Size sampleClient2) :=
  ⟨by decide, by decide,
    (flush_failure_preserves_buffer sampleClient2 0 (by decide)).2 500 "oops" (by decide),
    (flush_failure_preserves_buffer sampleClient2 0 (by decide)).1 "conn refused"⟩

/-- C4: `Log(t, msg)` appends exactly the line
`(timestamp = t truncated to ms, line = msg, file = empty)` to the buffer,
and afterwards triggers a flush if and only if the post-append size has
reached or exceeded the flush threshold (so exactly one POST is attempted
when it has, none otherwise); in particular with threshold 1 a single `Log`
call attempts exactly one POST. -/
theorem log_appends_and_triggers (c : Client) (t : Int) (msg : String) (nowNs : Int)
    (tr : TransportResult) :
    ((c.payload.Lines.length + 1 : Int) < c.flushLimit →
      Log c t msg nowNs tr
        = ({ c with payload := ⟨c.payload.Lines ++ [⟨Int.tdiv t 1000000, msg, ""⟩]⟩ }, [])) ∧
    ((Log c t msg nowNs tr).2.length
      = if (c.payload.Lines.length + 1 : Int) ≥ c.flushLimit then 1 else 0) ∧
    (c.flushLimit = 1 → (Log c t msg nowNs tr).2.length = 1) := by
  have happend : ({ c with payload := ⟨c.payload.Lines ++ [logLineOf t msg]⟩ } : Client).payload.Lines ≠ [] := by
    simp
  refine ⟨?_, ?_, ?_⟩
  · intro hlt
    simp only [Log]
    rw [if_neg]
    · rfl
    · simp only [Size, List.length_append, List.length_cons, List.length_nil, not_le]
      push_cast at hlt ⊢
      omega
  · by_cases hc : (c.payload.Lines.length + 1 : Int) ≥ c.flushLimit
    · rw [if_pos hc]
      simp only [Log]
      rw [if_pos]
      · exact Flush_posts_length _ nowNs tr happend
      · simp only [Size, List.length_append, List.length_cons, List.length_nil]
        push_cast at hc ⊢
        omega
    · rw [if_neg hc]
      simp only [Log]
      rw [if_neg]
      · rfl
      · simp only [Size, List.length_append, List.length_cons, List.length_nil, not_le]
        push_cast at hc ⊢
        omega
  · intro hone
    simp only [Log]
    rw [if_pos]
    · exact Flush_posts_length _ nowNs tr happend
    · simp only [Size, List.length_append, List.length_cons, List.length_nil, hone]
      push_cast
      omega

/-- Witness for C4: a single `Log` on a fresh client with threshold 1
attempts exactly one POST. -/
theorem log_appends_and_triggers_witness :
    ({ endpoint := sampleURL, flushLimit := 1, payload := ⟨[]⟩ } : Client).flushLimit = 1 ∧
    (Log { endpoint := sampleURL, flushLimit := 1, payload := ⟨[]⟩ } 1999999 "msg" 7000000
      (TransportResult.response 200 "ok")).2.length = 1 :=
  ⟨rfl,
    (log_appends_and_triggers { endpoint := sampleURL, flushLimit := 1, payload := ⟨[]⟩ }
      1999999 "msg" 7000000 (TransportResult.response 200 "ok")).2.2 rfl⟩

/-- C10: the constructor defaults the flush threshold only when it is
exactly zero — a negative `FlushLimit` is kept as-is — and on a client with
a negative threshold every `Log` call passes the size-check and attempts a
flush (one POST). -/
theorem negative_flush_limit (cfg : Config) (hr : Except String String)
    (hkey : cfg.APIKey ≠ "") (hhost : cfg.Hostname ≠ "") (hneg : cfg.FlushLimit < 0) :
    (∃ cl, NewClient cfg hr = .ok cl ∧ cl.flushLimit = cfg.FlushLimit) ∧
    (∀ (c : Client) (t : Int) (msg : String) (nowNs : Int) (tr : TransportResult),
      c.flushLimit < 0 → (Log c t msg nowNs tr).2.length = 1) := by
  constructor
  · have h0 : ¬ (cfg.FlushLimit = 0) := by omega
    have h1 : resolveHostname cfg.Hostname hr = .ok cfg.Hostname := by
      unfold resolveHostname
      rw [if_neg hhost]
    refine ⟨{ endpoint := { scheme := "https", user := cfg.APIKey,
                            host := "logs.logdna.com", path := "/logs/ingest",
                            rawQuery := valuesSet [] "hostname" cfg.Hostname },
              flushLimit := cfg.FlushLimit, payload := ⟨[]⟩ }, ?_, rfl⟩
    unfold NewClient
    rw [if_neg hkey, h1]
    simp [makeEndpoint, h0]
  · intro c t msg nowNs tr hlt
    simp only [Log]
    rw [if_pos]
    · exact Flush_posts_length _ nowNs tr (by simp)
    · simp only [Size, List.length_append, List.length_cons, List.length_nil]
      push_cast
      omega

/-- Witness for C10 at a concrete config with `FlushLimit = -5` and a
concrete negative-threshold client. -/
theorem negative_flush_limit_witness :
    ("secret" : String) ≠ "" ∧ ("testhost.com" : String) ≠ "" ∧ (-5 : Int) < 0 ∧
    (∃ cl, NewClient ⟨"secret", "testhost.com", -5⟩ (.ok "x") = .ok cl ∧ cl.flushLimit = -5) ∧
    sampleNegClient.flushLimit < 0 ∧
    (Log sampleNegClient 5 "m" 0 (TransportResult.response 200 "")).2.length = 1 :=
  ⟨by decide, by decide, by decide,
    (negative_flush_limit ⟨"secret", "testhost.com", -5⟩ (.ok "x")
      (by decide) (by decide) (by decide)).1,
    by decide,
    (negative_flush_limit ⟨"secret", "testhost.com", -5⟩ (.ok "x")
      (by decide) (by decide) (by decide)).2 sampleNegClient 5 "m" 0
      (TransportResult.response 200 "") (by decide)⟩

/-- C1: starting from a freshly constructed (empty-buffer) client, a
sequence of `N` `Log` calls with `N` below the flush threshold attempts no
POST, leaves `Size()` equal to `N`, stores exactly the `N` logged lines in
call order, and serializing the buffer yields the JSON array of exactly
those lines, in order, each rendered with the fields `timestamp`, `line`
and `file`. -/
theorem log_below_threshold (c : Client) (calls : List (Int × String)) (nowNs : Int)
    (tr : TransportResult) (hfresh : c.payload.Lines = [])
    (hlt : (calls.length : Int) < c.flushLimit) :
    (runLogs c calls nowNs tr).1.payload.Lines = linesOf calls ∧
    Size (runLogs c calls nowNs tr).1 = calls.length ∧
    (runLogs c calls nowNs tr).2 = [] ∧
    (calls ≠ [] →
      renderPayload (runLogs c calls nowNs tr).1.payload
        = "\x7b\"lines\":" ++ ("[" ++ String.intercalate "," ((linesOf calls).map renderLogLine) ++ "]")
            ++ "\x7d") := by
  have hrun := runLogs_no_flush calls c nowNs tr (by rw [hfresh]; simpa using hlt)
  rw [hrun]
  refine ⟨by simp [hfresh], by simp [Size, hfresh, linesOf], rfl, ?_⟩
  intro hne
  cases calls with
  | nil => exact absurd rfl hne
  | cons p rest =>
    simp only [hfresh, List.nil_append, linesOf, List.map_cons]
    simp only [renderPayload, renderLines]
    rw [List.map_cons]

/-- Witness for C1: two `Log` calls on a fresh client with threshold 10. -/
theorem log_below_threshold_witness :
    sampleClient.payload.Lines = [] ∧
    ((([((5 : Int), "a"), ((7 : Int), "b")] : List (Int × String)).length : Int) < sampleClient.flushLimit) ∧
    ((runLogs sampleClient [(5, "a"), (7, "b")] 0 (TransportResult.response 200 "")).1.payload.Lines
        = linesOf [(5, "a"), (7, "b")] ∧
     Size (runLogs sampleClient [(5, "a"), (7, "b")] 0 (TransportResult.response 200 "")).1
        = ([((5 : Int), "a"), ((7 : Int), "b")] : List (Int × String)).length ∧
     (runLogs sampleClient [(5, "a"), (7, "b")] 0 (TransportResult.response 200 "")).2 = [] ∧
     (([((5 : Int), "a"), ((7 : Int), "b")] : List (Int × String)) ≠ [] →
       renderPayload (runLogs sampleClient [(5, "a"), (7, "b")] 0 (TransportResult.response 200 "")).1.payload
        = "\x7b\"lines\":" ++ ("[" ++ String.intercalate ","
            ((linesOf [(5, "a"), (7, "b")]).map renderLogLine) ++ "]") ++ "\x7d")) :=
  ⟨rfl, by decide,
    log_below_threshold sampleClient [(5, "a"), (7, "b")] 0 (TransportResult.response 200 "")
      rfl (by decide)⟩

/-- C5 counterexample: serializing an empty buffer does not produce the
documented `lines`-array form — the nil slice marshals as `null`, so the
output is `\x7b"lines":null\x7d` and not `\x7b"lines":[]\x7d`. -/
theorem empty_buffer_serializes_null :
    renderPayload ⟨[]⟩ = "\x7b\"lines\":null\x7d" ∧
    renderPayload ⟨[]⟩ ≠ "\x7b\"lines\":[]\x7d" := by
  constructor
  · decide
  · decide

/-- C5 (amended): serializing the empty buffer yields `\x7b"lines":null\x7d`
(Go marshals the nil slice as `null`); serializing the buffer of the two
known lines yields exactly the documented wire format with the lines in
buffer order; and decoding the produced JSON value reconstructs the
original payload (round-trip, for every payload). -/
theorem payload_serialization_round_trip :
    renderPayload ⟨[]⟩ = "\x7b\"lines\":null\x7d" ∧
    renderPayload ⟨[sampleLine1, sampleLine2]⟩
      = "\x7b\"lines\":[\x7b\"timestamp\":1469047048,\"line\":\"Test line 1\",\"file\":\"test.log\"\x7d,\x7b\"timestamp\":1469146012,\"line\":\"Test line 2\",\"file\":\"test.log\"\x7d]\x7d" ∧
    (∀ p : payloadJSON, decodePayload (encodePayload p) = some p) :=
  ⟨by decide, by decide, decode_encode_payload⟩

/-- C6: `refreshEndpoint` only sets/overwrites the `now` query parameter
(to the instant in milliseconds as a decimal string) and returns the
serialized URL; scheme, credential (userinfo), host, path and every other
query parameter — in particular `hostname` — are unchanged; and across two
refreshes at different millisecond instants the `now` values differ while
credential and `hostname` agree with the original. -/
theorem refreshEndpoint_frame (u : URL) :
    (∀ nowNs : Int,
      (refreshEndpoint u nowNs).1.scheme = u.scheme ∧
      (refreshEndpoint u nowNs).1.user = u.user ∧
      (refreshEndpoint u nowNs).1.host = u.host ∧
      (refreshEndpoint u nowNs).1.path = u.path ∧
      (∀ k, k ≠ "now" → (refreshEndpoint u nowNs).1.rawQuery.lookup k = u.rawQuery.lookup k) ∧
      (refreshEndpoint u nowNs).1.rawQuery.lookup "now" = some (formatInt (nowToMs nowNs)) ∧
      (refreshEndpoint u nowNs).2 = urlString (refreshEndpoint u nowNs).1) ∧
    (∀ ns1 ns2 : Int, nowToMs ns1 ≠ nowToMs ns2 →
      (refreshEndpoint (refreshEndpoint u ns1).1 ns2).1.rawQuery.lookup "now"
        ≠ (refreshEndpoint u ns1).1.rawQuery.lookup "now" ∧
      (refreshEndpoint (refreshEndpoint u ns1).1 ns2).1.user = u.user ∧
      (refreshEndpoint (refreshEndpoint u ns1).1 ns2).1.rawQuery.lookup "hostname"
        = u.rawQuery.lookup "hostname") := by
  constructor
  · intro ns
    refine ⟨rfl, rfl, rfl, rfl, ?_, ?_, rfl⟩
    · intro k hk
      exact lookup_valuesSet_ne u.rawQuery "now" (formatInt (nowToMs ns)) k hk
    · exact lookup_valuesSet_self u.rawQuery "now" (formatInt (nowToMs ns))
  · intro ns1 ns2 hms
    refine ⟨?_, rfl, ?_⟩
    · have h1 : (refreshEndpoint u ns1).1.rawQuery.lookup "now"
          = some (formatInt (nowToMs ns1)) :=
        lookup_valuesSet_self u.rawQuery "now" (formatInt (nowToMs ns1))
      have h2 : (refreshEndpoint (refreshEndpoint u ns1).1 ns2).1.rawQuery.lookup "now"
          = some (formatInt (nowToMs ns2)) :=
        lookup_valuesSet_self (refreshEndpoint u ns1).1.rawQuery "now" (formatInt (nowToMs ns2))
      rw [h1, h2]
      intro hEq
      exact hms (formatInt_injective (Option.some.inj hEq)).symm
    · have h1 : (refreshEndpoint (refreshEndpoint u ns1).1 ns2).1.rawQuery.lookup "hostname"
          = (refreshEndpoint u ns1).1.rawQuery.lookup "hostname" :=
        lookup_valuesSet_ne (refreshEndpoint u ns1).1.rawQuery "now"
          (formatInt (nowToMs ns2)) "hostname" (by decide)
      rw [h1]
      exact lookup_valuesSet_ne u.rawQuery "now" (formatInt (nowToMs ns1)) "hostname" (by decide)

/-- Witness for C6: two refreshes of the sample endpoint one millisecond
apart have different `now` parameters and identical credential and
`hostname`. -/
theorem refreshEndpoint_frame_witness :
    nowToMs 0 ≠ nowToMs 1000000 ∧
    ((refreshEndpoint (refreshEndpoint sampleURL 0).1 1000000).1.rawQuery.lookup "now"
        ≠ (refreshEndpoint sampleURL 0).1.rawQuery.lookup "now" ∧
     (refreshEndpoint (refreshEndpoint sampleURL 0).1 1000000).1.user = sampleURL.user ∧
     (refreshEndpoint (refreshEndpoint sampleURL 0).1 1000000).1.rawQuery.lookup "hostname"
        = sampleURL.rawQuery.lookup "hostname") :=
  ⟨by decide, (refreshEndpoint_frame sampleURL).2 0 1000000 (by decide)⟩

/-- C7: the nanosecond-to-millisecond conversion is integer division by
1,000,000 truncating toward zero (witnessed by the sign/absolute-value
characterization and by 1999999 ↦ 1, −1999999 ↦ −1 — not rounding), and
this same rule gives both the timestamp of every logged line and the `now`
endpoint parameter. -/
theorem nowToMs_truncation :
    (∀ ns : Int, nowToMs ns = ns.sign * ((ns.natAbs / 1000000 : Nat) : Int)) ∧
    nowToMs 1999999 = 1 ∧
    nowToMs (-1999999) = -1 ∧
    (∀ (c : Client) (t : Int) (msg : String) (nowNs : Int) (tr : TransportResult),
      (c.payload.Lines.length + 1 : Int) < c.flushLimit →
      (Log c t msg nowNs tr).1.payload.Lines.getLast? = some ⟨Int.tdiv t 1000000, msg, ""⟩) ∧
    (∀ (u : URL) (ns : Int),
      (refreshEndpoint u ns).1.rawQuery.lookup "now"
        = some (formatInt (Int.tdiv ns 1000000))) := by
  refine ⟨?_, by decide, by decide, ?_, ?_⟩
  · intro ns
    show Int.tdiv ns 1000000 = ns.sign * ((ns.natAbs / 1000000 : Nat) : Int)
    rcases ns with (_ | m) | m
    · decide
    · rw [show Int.tdiv (Int.ofNat (m + 1)) 1000000 = Int.ofNat ((m + 1) / 1000000) from rfl,
        show (Int.ofNat (m + 1)).sign = 1 from rfl,
        show (Int.ofNat (m + 1)).natAbs = m + 1 from rfl, one_mul]
      rfl
    · rw [show Int.tdiv (Int.negSucc m) 1000000 = -Int.ofNat ((m + 1) / 1000000) from rfl,
        show (Int.negSucc m).sign = -1 from rfl,
        show (Int.negSucc m).natAbs = m + 1 from rfl, neg_one_mul]
      rfl
  · intro c t msg nowNs tr hlt
    have hlog : Log c t msg nowNs tr
        = ({ c with payload := ⟨c.payload.Lines ++ [logLineOf t msg]⟩ }, []) := by
      simp only [Log]
      rw [if_neg]
      · simp only [Size, List.length_append, List.length_cons, List.length_nil, not_le]
        push_cast at hlt ⊢
        omega
    rw [hlog]
    simp [List.getLast?_concat, logLineOf, nowToMs]
  · intro u ns
    exact lookup_valuesSet_self u.rawQuery "now" (formatInt (nowToMs ns))

/-- Witness for C7: one `Log` call on the fresh sample client stores
timestamp `1999999 tdiv 1000000 = 1`. -/
theorem nowToMs_truncation_witness :
    ((sampleClient.payload.Lines.length + 1 : Int) < sampleClient.flushLimit) ∧
    (Log sampleClient 1999999 "m" 0 (TransportResult.response 200 "")).1.payload.Lines.getLast?
      = some ⟨Int.tdiv 1999999 1000000, "m", ""⟩ :=
  ⟨by decide,
    nowToMs_truncation.2.2.2.1 sampleClient 1999999 "m" 0
      (TransportResult.response 200 "") (by decide)⟩

/-- C8: `NewClient` fails (returning no client) on an empty API key; with
an absent hostname it falls back to the kernel hostname, propagating the
kernel error and failing when that hostname is also empty; on success the
resolved hostname is the `hostname` query parameter; a zero `FlushLimit` is
replaced by the default 500 (otherwise kept); and every successfully
constructed client has an empty buffer and the API key as the endpoint
credential. -/
theorem newClient_validation (cfg : Config) (hr : Except String String) :
    (cfg.APIKey = "" → NewClient cfg hr = .error "APIKey missing in Config") ∧
    (cfg.APIKey ≠ "" → cfg.Hostname = "" → ∀ e, hr = .error e → NewClient cfg hr = .error e) ∧
    (cfg.APIKey ≠ "" → cfg.Hostname = "" → hr = .ok "" →
      NewClient cfg hr = .error "Hostname missing in Config and could not use os.Hostname") ∧
    (cfg.APIKey ≠ "" → cfg.Hostname = "" → ∀ h, hr = .ok h → h ≠ "" →
      ∃ cl, NewClient cfg hr = .ok cl ∧ cl.endpoint.rawQuery.lookup "hostname" = some h) ∧
    (∀ cl, NewClient cfg hr = .ok cl →
      cl.payload.Lines = [] ∧
      cl.flushLimit = (if cfg.FlushLimit = 0 then DefaultFlushLimit else cfg.FlushLimit) ∧
      cl.endpoint.user = cfg.APIKey) := by
  refine ⟨?_, ?_, ?_, ?_, ?_⟩
  · intro hk
    unfold NewClient
    rw [if_pos hk]
  · intro hk hh e he
    have h1 : resolveHostname cfg.Hostname hr = .error e := by
      unfold resolveHostname
      rw [if_pos hh, he]
    unfold NewClient
    rw [if_neg hk, h1]
  · intro hk hh hok
    have h1 : resolveHostname cfg.Hostname hr
        = .error "Hostname missing in Config and could not use os.Hostname" := by
      unfold resolveHostname
      rw [if_pos hh, hok]
      rfl
    unfold NewClient
    rw [if_neg hk, h1]
  · intro hk hh h hok hne
    have h1 : resolveHostname cfg.Hostname hr = .ok h := by
      unfold resolveHostname
      rw [if_pos hh, hok]
      dsimp only
      rw [if_neg hne]
    refine ⟨{ endpoint := { scheme := "https", user := cfg.APIKey,
                            host := "logs.logdna.com", path := "/logs/ingest",
                            rawQuery := valuesSet [] "hostname" h },
              flushLimit := if cfg.FlushLimit = 0 then DefaultFlushLimit else cfg.FlushLimit,
              payload := ⟨[]⟩ }, ?_, ?_⟩
    · unfold NewClient
      rw [if_neg hk, h1]
      simp [makeEndpoint]
    · exact lookup_valuesSet_self [] "hostname" h
  · intro cl hcl
    by_cases hk : cfg.APIKey = ""
    · unfold NewClient at hcl
      rw [if_pos hk] at hcl
      exact absurd hcl (by simp)
    · unfold NewClient at hcl
      rw [if_neg hk] at hcl
      cases hres : resolveHostname cfg.Hostname hr with
      | error e =>
        rw [hres] at hcl
        exact absurd hcl (by simp)
      | ok h =>
        rw [hres] at hcl
        simp only [makeEndpoint, Except.ok.injEq] at hcl
        subst hcl
        exact ⟨rfl, rfl, rfl⟩

/-- Witness for C8: empty API key is rejected; an empty config hostname with
kernel hostname `kernelhost` constructs a client whose `hostname` parameter
is `kernelhost`. -/
theorem newClient_validation_witness :
    ("" : String) = "" ∧
    NewClient ⟨"", "h", 5⟩ (.ok "x") = .error "APIKey missing in Config" ∧
    ("secret" : String) ≠ "" ∧
    ("kernelhost" : String) ≠ "" ∧
    (∃ cl, NewClient ⟨"secret", "", 0⟩ (.ok "kernelhost") = .ok cl ∧
      cl.endpoint.rawQuery.lookup "hostname" = some "kernelhost") :=
  ⟨rfl, (newClient_validation ⟨"", "h", 5⟩ (.ok "x")).1 rfl,
   by decide, by decide,
   (newClient_validation ⟨"secret", "", 0⟩ (.ok "kernelhost")).2.2.2.1
     (by decide) rfl "kernelhost" rfl (by decide)⟩

end Logdna
